import Mathlib

/-!
Shallow embedding of the request-dispatch core of the Go Swift client
(`swift.go`): metadata/header codec, error classification, the
authentication session, the retrying storage dispatcher, and the
checksum-guarded object upload/download paths.

Go strings are modelled as lists of characters (`GoStr`), restricted in
practice to the ASCII/byte range on which the header machinery operates.
Go maps (`map[string]string`) are modelled as association lists written
with `mapInsert` (overwrite-or-append, mirroring Go map assignment);
`http.Header` used as a multimap by `Header.Add` is modelled as a list of
key/value pairs in insertion order.
-/

/-- Go string, as a list of characters. -/
abbrev GoStr := List Char

/-- Coerce a Lean string literal to a `GoStr`. -/
def gs (s : String) : GoStr := s.data

/-- `validHeaderFieldByte` of net/textproto: the RFC 7230 token characters.
Any other byte makes `CanonicalMIMEHeaderKey` return its input unchanged. -/
def validHeaderFieldChar (c : Char) : Bool :=
  ('0' ≤ c ∧ c ≤ '9') ∨ ('a' ≤ c ∧ c ≤ 'z') ∨ ('A' ≤ c ∧ c ≤ 'Z') ∨
    c = '!' ∨ c = '#' ∨ c = '$' ∨ c = '%' ∨ c = '&' ∨ c = '\'' ∨ c = '*' ∨
    c = '+' ∨ c = '-' ∨ c = '.' ∨ c = '^' ∨ c = '_' ∨ c = '`' ∨ c = '|' ∨ c = '~'

/-- ASCII down-casing of one byte (`c += 'a' - 'A'` on upper-case letters),
as Go performs on header bytes and as `strings.ToLower` acts on ASCII. -/
def lowerChar (c : Char) : Char :=
  if 65 ≤ c.toNat ∧ c.toNat ≤ 90 then Char.ofNat (c.toNat + 32) else c

/-- ASCII up-casing of one byte (`c -= 'a' - 'A'` on lower-case letters). -/
def upperChar (c : Char) : Char :=
  if 97 ≤ c.toNat ∧ c.toNat ≤ 122 then Char.ofNat (c.toNat - 32) else c

/-- One step of canonical-casing: with `upper` set (start of key or after a
dash) a lower-case letter is up-cased, otherwise an upper-case letter is
down-cased; every other character passes through. -/
def canonChar (upper : Bool) (c : Char) : Char :=
  if upper then upperChar c else lowerChar c

/-- Positional canonical-casing of net/textproto `canonicalMIMEHeaderKey`:
the flag is true at the start and right after each '-'. -/
def canonAux : Bool → List Char → List Char
  | _, [] => []
  | upper, c :: cs => canonChar upper c :: canonAux (c = '-') cs

/-- `http.CanonicalHeaderKey`: if every byte is a valid header-field byte the
key is canonically re-cased, otherwise it is returned unmodified. -/
def canonicalHeaderKey (s : GoStr) : GoStr :=
  if s.all validHeaderFieldChar then canonAux true s else s

/-- `strings.ToLower`, on the ASCII range the codec operates over. -/
def goToLower (s : GoStr) : GoStr := s.map lowerChar

/-- Decimal rendering of a natural number (for `%d` in `fmt.Sprintf`). -/
def natDec (n : Nat) : GoStr := Nat.toDigits 10 n

section CharLemmas

theorem charOfNat_toNat {n : Nat} (h : n < 55296) : (Char.ofNat n).toNat = n := by
  have h' : n.isValidChar := Or.inl h
  simp only [Char.ofNat, h', dite_true]
  rfl

theorem lowerChar_upperChar (c : Char) : lowerChar (upperChar c) = lowerChar c := by
  unfold upperChar lowerChar
  by_cases hu : 97 ≤ c.toNat ∧ c.toNat ≤ 122
  · rw [if_pos hu]
    have h32 : (Char.ofNat (c.toNat - 32)).toNat = c.toNat - 32 :=
      charOfNat_toNat (by omega)
    rw [h32]
    have hl : ¬(65 ≤ c.toNat ∧ c.toNat ≤ 90) := by omega
    have hl2 : 65 ≤ c.toNat - 32 ∧ c.toNat - 32 ≤ 90 := by omega
    rw [if_pos hl2, if_neg hl]
    have heq : c.toNat - 32 + 32 = c.toNat := by omega
    rw [heq, Char.ofNat_toNat]
  · rw [if_neg hu]

theorem lowerChar_lowerChar (c : Char) : lowerChar (lowerChar c) = lowerChar c := by
  unfold lowerChar
  by_cases hu : 65 ≤ c.toNat ∧ c.toNat ≤ 90
  · rw [if_pos hu]
    have h32 : (Char.ofNat (c.toNat + 32)).toNat = c.toNat + 32 :=
      charOfNat_toNat (by omega)
    rw [h32]
    have hl : ¬(65 ≤ c.toNat + 32 ∧ c.toNat + 32 ≤ 90) := by omega
    rw [if_neg hl]
  · rw [if_neg hu, if_neg hu]

/-- Canonical-casing only changes letter case. -/
theorem lowerChar_canonChar (u : Bool) (c : Char) :
    lowerChar (canonChar u c) = lowerChar c := by
  cases u with
  | true => exact lowerChar_upperChar c
  | false => exact lowerChar_lowerChar c

end CharLemmas

/-! ## Go maps and HTTP header containers -/

/-- Go map assignment `m[k] = v` on an association-list representation:
replace the value at an existing key in place, else append a new entry. -/
def mapInsert (k v : GoStr) : List (GoStr × GoStr) → List (GoStr × GoStr)
  | [] => [(k, v)]
  | kv :: rest => if kv.1 = k then (k, v) :: rest else kv :: mapInsert k v rest

/-- Go map read `m[k]` (first matching entry, or absent). -/
def mapGet (k : GoStr) : List (GoStr × GoStr) → Option GoStr
  | [] => none
  | kv :: rest => if kv.1 = k then some kv.2 else mapGet k rest

/-- `Headers` of swift.go: one value per header key (a `map[string]string`). -/
abbrev Headers := List (GoStr × GoStr)

/-- `Metadata` of swift.go: account/container/object metadata map. -/
abbrev Metadata := List (GoStr × GoStr)

/-- `http.Header.Add`: canonicalize the key and append the value (the header
is a multimap; an existing value for the key is kept, not replaced). -/
def headerAdd (h : List (GoStr × GoStr)) (k v : GoStr) : List (GoStr × GoStr) :=
  h ++ [(canonicalHeaderKey k, v)]

/-- `http.Header.Get`: canonicalize the key and return the first value
recorded for it, or the empty string when absent. -/
def headerGet (h : List (GoStr × GoStr)) (k : GoStr) : GoStr :=
  match mapGet (canonicalHeaderKey k) h with
  | some v => v
  | none => []

/-! ## Errors and the classifier (`Error`, `errorMap`, `parseHeaders`) -/

/-- `Error` of swift.go: HTTP status code (0 if not relevant) and text. -/
structure GoError where
  statusCode : Nat
  text : GoStr
deriving DecidableEq

/-- `newError`. -/
def newError (statusCode : Nat) (text : GoStr) : GoError := ⟨statusCode, text⟩

/-- `AuthorizationFailed`. -/
def AuthorizationFailed : GoError := newError 401 (gs "Authorization Failed")

/-- `ContainerNotFound`. -/
def ContainerNotFound : GoError := newError 404 (gs "Container Not Found")

/-- `ContainerNotEmpty`. -/
def ContainerNotEmpty : GoError := newError 409 (gs "Container Not Empty")

/-- `ObjectNotFound`. -/
def ObjectNotFound : GoError := newError 404 (gs "Object Not Found")

/-- `ObjectCorrupted`. -/
def ObjectCorrupted : GoError := newError 422 (gs "Object Corrupted")

instance : DecidableEq (Except GoError Int) := fun a b =>
  match a, b with
  | Except.ok x, Except.ok y =>
    if h : x = y then isTrue (by rw [h]) else isFalse (by intro hc; cases hc; exact h rfl)
  | Except.error x, Except.error y =>
    if h : x = y then isTrue (by rw [h]) else isFalse (by intro hc; cases hc; exact h rfl)
  | Except.ok _, Except.error _ => isFalse (by intro hc; cases hc)
  | Except.error _, Except.ok _ => isFalse (by intro hc; cases hc)

/-- `errorMap`: status-code to error mapping (`map[int]error`). -/
abbrev ErrorMap := List (Nat × GoError)

/-- Go map read on an `errorMap`. -/
def errorMapGet (em : ErrorMap) (status : Nat) : Option GoError :=
  match em with
  | [] => none
  | se :: rest => if se.1 = status then some se.2 else errorMapGet rest status

/-- `authErrorMap`. -/
def authErrorMap : ErrorMap := [(401, AuthorizationFailed)]

/-- `containerErrorMap`. -/
def containerErrorMap : ErrorMap := [(404, ContainerNotFound), (409, ContainerNotEmpty)]

/-- `objectErrorMap`. -/
def objectErrorMap : ErrorMap := [(404, ObjectNotFound), (422, ObjectCorrupted)]

/-- An HTTP response as the dispatcher sees it: status code, status line text
(`resp.Status`), response headers, and the body's byte stream. -/
structure Resp where
  status : Nat
  statusText : GoStr
  headers : List (GoStr × GoStr)
  body : List Nat
deriving DecidableEq

/-- The generic HTTP error `newErrorf(resp.StatusCode, "HTTP Error: %d: %s",
resp.StatusCode, resp.Status)`. -/
def genericHTTPError (status : Nat) (statusText : GoStr) : GoError :=
  newError status (gs "HTTP Error: " ++ natDec status ++ gs ": " ++ statusText)

/-- `Connection.parseHeaders`: map lookup first, then the 2xx range check,
else the generic HTTP error. -/
def parseHeaders (resp : Resp) (em : ErrorMap) : Option GoError :=
  match errorMapGet em resp.status with
  | some e => some e
  | none =>
    if resp.status < 200 ∨ resp.status > 299 then
      some (genericHTTPError resp.status resp.statusText)
    else
      none

/-- `readHeaders`: fold the response's header map into a `Headers` value
(one value per key). -/
def readHeaders (resp : Resp) : Headers :=
  resp.headers.foldl (fun m kv => mapInsert kv.1 kv.2 m) []

/-! ## Metadata codec (`Headers.Metadata`, `Metadata.Headers`) -/

/-- `Headers.Metadata`: canonicalize the meta prefix, keep the headers that
start with it, strip the prefix and lower-case what remains. -/
def Headers.Metadata (h : Headers) (metaPfx : GoStr) : Metadata :=
  let pfx := canonicalHeaderKey metaPfx
  h.foldl
    (fun m kv =>
      if pfx.isPrefixOf kv.1 then
        mapInsert (goToLower (kv.1.drop pfx.length)) kv.2 m
      else m)
    []

/-- `Metadata.Headers`: canonicalize `metaPrefix + key` for every entry. -/
def Metadata.Headers (m : Metadata) (metaPfx : GoStr) : Headers :=
  m.foldl (fun h kv => mapInsert (canonicalHeaderKey (metaPfx ++ kv.1)) kv.2 h) []

/-! ## The session (`Connection` auth state) -/

/-- The session slice of `Connection`: `storageUrl` and `authToken`. -/
structure Session where
  storageUrl : GoStr
  authToken : GoStr
deriving DecidableEq

/-- The zero-valued session a fresh `Connection` starts with. -/
def initSession : Session := ⟨[], []⟩

/-- `Connection.Authenticated`: both fields non-empty. -/
def authenticated (c : Session) : Bool :=
  c.storageUrl ≠ [] ∧ c.authToken ≠ []

/-- `Connection.UnAuthenticate`: clear both fields. -/
def unAuthenticate (_c : Session) : Session := ⟨[], []⟩

/-- `Connection.Authenticate`, given the handshake response the transport
produced: classify through `authErrorMap`; on success copy the
`X-Storage-Url` and `X-Auth-Token` headers into the session (in that order,
unconditionally) and fail with a status-0 error if the updated session is
still not authenticated. -/
def authenticate (c : Session) (resp : Resp) : Session × Option GoError :=
  match parseHeaders resp authErrorMap with
  | some e => (c, some e)
  | none =>
    let c1 : Session := { c with storageUrl := headerGet resp.headers (gs "X-Storage-Url") }
    let c2 : Session := { c1 with authToken := headerGet resp.headers (gs "X-Auth-Token") }
    if ¬ authenticated c2 then
      (c2, some (newError 0 (gs "Response didn't have storage url and auth token")))
    else
      (c2, none)

/-! ## The dispatcher (`storageOpts`, `Connection.storage`) -/

/-- `DefaultUserAgent`. -/
def DefaultUserAgent : GoStr := gs "goswift/1.0"

/-- `DefaultRetries`. -/
def DefaultRetries : Nat := 3

/-- `storageOpts`.  `parameters` carries the already-encoded query string
(`url.Values.Encode` is net/url library code); `headers = none` models a nil
caller header map. -/
structure StorageOpts where
  container : GoStr := []
  objectName : GoStr := []
  operation : GoStr
  parameters : Option GoStr := none
  headers : Option Headers := none
  errorMap : ErrorMap := []
  noResponse : Bool := false
  retries : Nat := 0

/-- The outbound request header map built by `Connection.storage`: caller
headers first (each through `http.Header.Add`), then the default
`User-Agent`, then `X-Auth-Token` — all appended, none replaced. -/
def buildReqHeaders (callerH : Option Headers) (token : GoStr) : List (GoStr × GoStr) :=
  let h := match callerH with
    | some hs => hs.foldl (fun acc kv => headerAdd acc kv.1 kv.2) []
    | none => []
  headerAdd (headerAdd h (gs "User-Agent") DefaultUserAgent) (gs "X-Auth-Token") token

/-- What one loop iteration of `Connection.storage` produced when it reached
the send: the response, the session after the (possible) re-authentication,
how many handshakes this iteration performed, and the request it built. -/
structure IterOk where
  resp : Resp
  sess : Session
  authUsed : Nat
  reqHeaders : List (GoStr × GoStr)
  url : GoStr

/-- Outcome of `Connection.storage`.  `resp`/`headers`/`err` are the Go
return values (`resp = none` models a nil response).  The remaining fields
instrument the run: final session, handshake and request counts, whether the
dispatcher closed the final response's body and how many of its body bytes
the dispatcher itself consumed, the final response it broke the loop with,
and the headers/url of the last outbound request built. -/
structure StorageRes where
  resp : Option Resp
  headers : Headers
  err : Option GoError
  endSess : Session
  handshakes : Nat
  requests : Nat
  bodyClosed : Bool
  bodyRead : Nat
  finalResp : Option Resp
  lastReqHeaders : List (GoStr × GoStr)
  lastUrl : GoStr
deriving DecidableEq

/-- The resource URL `Connection.storage` builds: storage endpoint, then
container and object segments, then the encoded query parameters. -/
def storageUrlOf (p : StorageOpts) (sess : Session) : GoStr :=
  sess.storageUrl
    ++ (if p.container ≠ [] then
          gs "/" ++ p.container ++ (if p.objectName ≠ [] then gs "/" ++ p.objectName else [])
        else [])
    ++ (match p.parameters with
        | some enc => if enc ≠ [] then gs "?" ++ enc else []
        | none => [])

/-- One iteration of the `storage` loop up to the 401 decision: authenticate
when the session is invalid (propagating handshake failure immediately),
build the URL and the request headers, and send (the transport supplies
`t0`). -/
def storageIter (p : StorageOpts) (auth0 t0 : Resp) (sess : Session) :
    (Session × GoError × Nat) ⊕ IterOk :=
  let pre :=
    if authenticated sess then (sess, (none : Option GoError), 0)
    else
      let ae := authenticate sess auth0
      (ae.1, ae.2, 1)
  match pre.2.1 with
  | some e => Sum.inl (pre.1, e, pre.2.2)
  | none =>
    let sess1 := pre.1
    Sum.inr ⟨t0, sess1, pre.2.2, buildReqHeaders p.headers sess1.authToken,
      storageUrlOf p sess1⟩

/-- The code after the loop: classify the final response (closing its body
and returning nil response/headers on a classification error), read the
headers, and close the body — without reading it — when `noResponse` is set
(`resp.Body.Close()` is modelled as always succeeding). -/
def storageFinish (p : StorageOpts) (it : IterOk) : StorageRes :=
  match parseHeaders it.resp p.errorMap with
  | some e =>
    ⟨none, [], some e, it.sess, it.authUsed, 1, true, 0, some it.resp, it.reqHeaders, it.url⟩
  | none =>
    let hdrs := readHeaders it.resp
    if p.noResponse then
      ⟨some it.resp, hdrs, none, it.sess, it.authUsed, 1, true, 0, some it.resp, it.reqHeaders,
        it.url⟩
    else
      ⟨some it.resp, hdrs, none, it.sess, it.authUsed, 1, false, 0, some it.resp, it.reqHeaders,
        it.url⟩

/-- The `for` loop of `Connection.storage`, recursing on the retry budget.
`tr`/`auth` give the transport's answer to the i-th resource request and the
i-th authentication handshake; on a retry both streams are shifted past the
responses this iteration consumed.  A 401 response with retries remaining
closes that response's body, invalidates the session and loops; any other
response — including a 401 with the budget exhausted — breaks the loop. -/
def storageLoop (p : StorageOpts) (tr auth : Nat → Resp) :
    Nat → Session → StorageRes
  | 0, sess =>
    match storageIter p (auth 0) (tr 0) sess with
    | Sum.inl (s', e, aU) => ⟨none, [], some e, s', aU, 0, false, 0, none, [], []⟩
    | Sum.inr it => storageFinish p it
  | (r + 1), sess =>
    match storageIter p (auth 0) (tr 0) sess with
    | Sum.inl (s', e, aU) => ⟨none, [], some e, s', aU, 0, false, 0, none, [], []⟩
    | Sum.inr it =>
      if it.resp.status = 401 then
        let res := storageLoop p (fun i => tr (i + 1)) (fun i => auth (i + it.authUsed)) r
          (unAuthenticate it.sess)
        { res with handshakes := res.handshakes + it.authUsed, requests := res.requests + 1 }
      else storageFinish p it

/-- `Connection.storage`: a zero `retries` in the opts falls back to the
connection-wide default. -/
def storage (cRetries : Nat) (p : StorageOpts) (tr auth : Nat → Resp) (sess : Session) :
    StorageRes :=
  storageLoop p tr auth (if p.retries = 0 then cRetries else p.retries) sess

/-! ## Integer header parsing (`strconv.ParseInt`, `getInt64FromHeader`) -/

/-- Accumulate decimal digits; any non-digit fails. -/
def parseDigitsAux : List Char → Nat → Option Nat
  | [], acc => some acc
  | c :: cs, acc =>
    if '0' ≤ c ∧ c ≤ '9' then parseDigitsAux cs (acc * 10 + (c.toNat - 48))
    else none

/-- `strconv.ParseInt(s, 10, 64)`: optional sign, at least one digit, only
digits, value within int64 range; the error text mirrors strconv's. -/
def goParseInt64 (s : GoStr) : Except GoStr Int :=
  let signed :=
    match s with
    | '+' :: rest => (false, rest)
    | '-' :: rest => (true, rest)
    | _ => (false, s)
  match signed.2 with
  | [] => Except.error (gs "invalid syntax")
  | _ =>
    match parseDigitsAux signed.2 0 with
    | none => Except.error (gs "invalid syntax")
    | some n =>
      if signed.1 then
        if n ≤ 2 ^ 63 then Except.ok (-(n : Int)) else Except.error (gs "value out of range")
      else
        if n ≤ 2 ^ 63 - 1 then Except.ok (n : Int) else Except.error (gs "value out of range")

/-- `getInt64FromHeader`: decode an int64 response header, wrapping a parse
failure in a status-0 `Bad Header` error. -/
def getInt64FromHeader (resp : Resp) (hdr : GoStr) : Except GoError Int :=
  let value := headerGet resp.headers hdr
  match goParseInt64 value with
  | Except.ok n => Except.ok n
  | Except.error m =>
    Except.error (newError 0 (gs "Bad Header '" ++ hdr ++ gs "': '" ++ value ++
      gs "': strconv.ParseInt: parsing \x22" ++ value ++ gs "\x22: " ++ m))

/-! ## Object upload and download (`ObjectPut`, `ObjectGet`) -/

/-- The `extraHeaders` map of `ObjectPut`: default `Content-Type`, then the
caller's headers written over it, then — when a precomputed hash is given —
`Etag` written last. -/
def objectPutExtraHeaders (contentType hashStr : GoStr) (h : Headers) : Headers :=
  let ct := if contentType = [] then gs "application/octet-stream" else contentType
  let eh := mapInsert (gs "Content-Type") ct []
  let eh := h.foldl (fun m kv => mapInsert kv.1 kv.2 m) eh
  if hashStr ≠ [] then mapInsert (gs "Etag") hashStr eh else eh

/-- Result of `ObjectPut`/`ObjectGet`: the Go return values plus the
dispatcher outcome they were derived from. -/
structure ObjResult where
  headers : Headers
  err : Option GoError
  written : Nat
  res : StorageRes

/-- `Connection.ObjectPut`, abstracted over the md5-hex digest function
(crypto/md5 is library code).  A non-empty `hashStr` is sent as the `Etag`
header and forces `checkHash` off; with `checkHash` on, the uploaded bytes
are tee'd through the digest and compared, lower-cased, against the
response's `Etag`. -/
def objectPut (md5hex : List Nat → GoStr) (container objectName : GoStr)
    (contents : List Nat) (checkHash : Bool) (hashStr contentType : GoStr)
    (h : Headers) (tr auth : Nat → Resp) (sess : Session) (cRetries : Nat) : ObjResult :=
  let extraHeaders := objectPutExtraHeaders contentType hashStr h
  let checkHash1 := if hashStr ≠ [] then false else checkHash
  let res := storage cRetries
    { container := container, objectName := objectName, operation := gs "PUT",
      headers := some extraHeaders, noResponse := true, errorMap := objectErrorMap }
    tr auth sess
  match res.err with
  | some e => ⟨res.headers, some e, 0, res⟩
  | none =>
    if checkHash1 then
      match res.resp with
      | some resp =>
        let receivedMd5 := goToLower (headerGet resp.headers (gs "Etag"))
        let calculatedMd5 := md5hex contents
        if receivedMd5 ≠ calculatedMd5 then ⟨res.headers, some ObjectCorrupted, 0, res⟩
        else ⟨res.headers, none, 0, res⟩
      | none => ⟨res.headers, none, 0, res⟩
    else ⟨res.headers, none, 0, res⟩

/-- `Connection.ObjectGet`, abstracted over the md5-hex digest function.
`io.Copy` writes the whole response body to the caller's sink (tee'd through
the digest when `checkHash`); then the digest is compared against the
response `Etag`, then the byte count against a declared `Content-Length`. -/
def objectGet (md5hex : List Nat → GoStr) (container objectName : GoStr)
    (checkHash : Bool) (h : Headers) (tr auth : Nat → Resp) (sess : Session)
    (cRetries : Nat) : ObjResult :=
  let res := storage cRetries
    { container := container, objectName := objectName, operation := gs "GET",
      errorMap := objectErrorMap, headers := some h }
    tr auth sess
  match res.err with
  | some e => ⟨res.headers, some e, 0, res⟩
  | none =>
    match res.resp with
    | none => ⟨res.headers, none, 0, res⟩
    | some resp =>
      let written := resp.body.length
      if checkHash ∧ goToLower (headerGet resp.headers (gs "Etag")) ≠ md5hex resp.body then
        ⟨res.headers, some ObjectCorrupted, written, res⟩
      else if headerGet resp.headers (gs "Content-Length") ≠ [] then
        match getInt64FromHeader resp (gs "Content-Length") with
        | Except.error e => ⟨res.headers, some e, written, res⟩
        | Except.ok n =>
          if n ≠ (written : Int) then ⟨res.headers, some ObjectCorrupted, written, res⟩
          else ⟨res.headers, none, written, res⟩
      else ⟨res.headers, none, written, res⟩

/-! ## Storage opts of the account/container operations -/

/-- The opts `Connection.Account` dispatches with. -/
def accountOpts : StorageOpts :=
  { operation := gs "HEAD", errorMap := containerErrorMap, noResponse := true }

/-- The opts `Connection.AccountUpdate` dispatches with. -/
def accountUpdateOpts (h : Headers) : StorageOpts :=
  { operation := gs "POST", errorMap := containerErrorMap, noResponse := true,
    headers := some h }

/-- The opts `Connection.ContainerDelete` dispatches with. -/
def containerDeleteOpts (container : GoStr) : StorageOpts :=
  { container := container, operation := gs "DELETE", errorMap := containerErrorMap,
    noResponse := true }

/-- The opts `Connection.ObjectDelete` dispatches with. -/
def objectDeleteOpts (container objectName : GoStr) : StorageOpts :=
  { container := container, objectName := objectName, operation := gs "DELETE",
    errorMap := objectErrorMap }

/-- Modelled from the spec's words (§4.3 lookup order), for the refinement
statement of the classifier: (1) exact status in the resource-class map,
(2) nil if the status is in [200, 299], (3) otherwise a generic HTTP error
carrying the raw status and status text. -/
def classifySpec (status : Nat) (statusText : GoStr) (em : ErrorMap) : Option GoError :=
  match errorMapGet em status with
  | some e => some e
  | none =>
    if 200 ≤ status ∧ status ≤ 299 then none
    else some (genericHTTPError status statusText)

/-! ## Theorems -/

section ClassifierClaims

/-- C4: classification returns the mapped error when the status is a key of
the resource-class error map; otherwise nil on a 2xx status; otherwise a
generic HTTP error carrying the status and status text.  In particular 409
through a container-delete operation's map is `ContainerNotEmpty`, while 409
through an object operation's map is the generic HTTP error for 409. -/
theorem c4_error_classification :
    (∀ (resp : Resp) (em : ErrorMap),
      parseHeaders resp em = classifySpec resp.status resp.statusText em) ∧
    (∀ (st : GoStr) (hd : List (GoStr × GoStr)) (b : List Nat),
      parseHeaders ⟨409, st, hd, b⟩ (containerDeleteOpts (gs "c")).errorMap =
        some ContainerNotEmpty) ∧
    (∀ (st : GoStr) (hd : List (GoStr × GoStr)) (b : List Nat),
      parseHeaders ⟨409, st, hd, b⟩ (objectDeleteOpts (gs "c") (gs "o")).errorMap =
        some (genericHTTPError 409 st)) := by
  refine ⟨?_, ?_, ?_⟩
  · intro resp em
    unfold parseHeaders classifySpec
    cases errorMapGet em resp.status with
    | some e => rfl
    | none =>
      by_cases h : 200 ≤ resp.status ∧ resp.status ≤ 299
      · rw [if_neg (by omega), if_pos h]
      · rw [if_pos (by omega), if_neg h]
  · intro st hd b
    rfl
  · intro st hd b
    rfl

/-- C10: `Connection.Account` and `Connection.AccountUpdate` classify through
the container error table, so a 404 yields `ContainerNotFound` and a 409
yields `ContainerNotEmpty` on account operations. -/
theorem c10_account_uses_container_map :
    accountOpts.errorMap = containerErrorMap ∧
    (∀ h : Headers, (accountUpdateOpts h).errorMap = containerErrorMap) ∧
    (∀ (st : GoStr) (hd : List (GoStr × GoStr)) (b : List Nat),
      parseHeaders ⟨404, st, hd, b⟩ accountOpts.errorMap = some ContainerNotFound ∧
      parseHeaders ⟨409, st, hd, b⟩ accountOpts.errorMap = some ContainerNotEmpty ∧
      (∀ h : Headers,
        parseHeaders ⟨404, st, hd, b⟩ (accountUpdateOpts h).errorMap =
          some ContainerNotFound ∧
        parseHeaders ⟨409, st, hd, b⟩ (accountUpdateOpts h).errorMap =
          some ContainerNotEmpty)) := by
  refine ⟨rfl, fun _ => rfl, ?_⟩
  intro st hd b
  exact ⟨rfl, rfl, fun _ => ⟨rfl, rfl⟩⟩

end ClassifierClaims

section AuthClaims

/-- C5 counterexample: a 2xx handshake response carrying neither header makes
`Authenticate` fail with a status-code-0 error, not one carrying the
server's status (200). -/
theorem c5_auth_error_status_cex :
    (authenticate initSession ⟨200, gs "200 OK", [], []⟩).2 =
      some (newError 0 (gs "Response didn't have storage url and auth token")) ∧
    ((authenticate initSession ⟨200, gs "200 OK", [], []⟩).2.map GoError.statusCode =
      some 0) ∧
    (0 : Nat) ≠ 200 := by
  refine ⟨rfl, rfl, by omega⟩

/-- C5 amended: for every 2xx handshake response in which the storage-URL
header or the token header is absent or empty, `Authenticate` fails — but
the error carries status code 0, not the server's HTTP status code. -/
theorem c5_auth_missing_header_amended (sess : Session) (resp : Resp)
    (hlo : 200 ≤ resp.status) (hhi : resp.status ≤ 299)
    (hmiss : headerGet resp.headers (gs "X-Storage-Url") = [] ∨
      headerGet resp.headers (gs "X-Auth-Token") = []) :
    (authenticate sess resp).2 =
      some (newError 0 (gs "Response didn't have storage url and auth token")) := by
  have h401 : ¬((401 : Nat) = resp.status) := by omega
  have hparse : parseHeaders resp authErrorMap = none := by
    simp only [parseHeaders, authErrorMap, errorMapGet, h401, if_false]
    rw [if_neg (show ¬(resp.status < 200 ∨ resp.status > 299) by omega)]
  simp only [authenticate, hparse]
  rcases hmiss with hm | hm <;> simp [authenticated, hm]

/-- C5 witness: a 204 handshake response carrying only the storage URL makes
`Authenticate` fail with the status-0 error. -/
theorem c5_auth_missing_header_witness :
    (authenticate initSession
        ⟨204, gs "204 No Content", [(gs "X-Storage-Url", gs "http://stor")], []⟩).2 =
      some (newError 0 (gs "Response didn't have storage url and auth token")) :=
  c5_auth_missing_header_amended initSession
    ⟨204, gs "204 No Content", [(gs "X-Storage-Url", gs "http://stor")], []⟩
    (by decide) (by decide) (Or.inr (by decide))

end AuthClaims

section AuthHelpers

/-- A successful handshake answer: 2xx status and both session headers
present and non-empty. -/
def goodAuthResp (a : Resp) : Prop :=
  200 ≤ a.status ∧ a.status ≤ 299 ∧
    headerGet a.headers (gs "X-Storage-Url") ≠ [] ∧
    headerGet a.headers (gs "X-Auth-Token") ≠ []

instance (a : Resp) : Decidable (goodAuthResp a) := by
  unfold goodAuthResp; infer_instance

theorem parseHeaders_auth_2xx (resp : Resp) (hlo : 200 ≤ resp.status)
    (hhi : resp.status ≤ 299) : parseHeaders resp authErrorMap = none := by
  have h401 : ¬((401 : Nat) = resp.status) := by omega
  simp only [parseHeaders, authErrorMap, errorMapGet, h401, if_false]
  rw [if_neg (show ¬(resp.status < 200 ∨ resp.status > 299) by omega)]

theorem authenticate_good (c : Session) (a : Resp) (h : goodAuthResp a) :
    authenticate c a =
      (⟨headerGet a.headers (gs "X-Storage-Url"),
        headerGet a.headers (gs "X-Auth-Token")⟩, none) := by
  obtain ⟨h1, h2, h3, h4⟩ := h
  simp only [authenticate, parseHeaders_auth_2xx a h1 h2]
  simp [authenticated, h3, h4]

end AuthHelpers

section SessionInvariant

/-- The pair invariant of C3: the two session fields are empty together. -/
def pairOk (s : Session) : Prop := s.storageUrl = [] ↔ s.authToken = []

instance (s : Session) : Decidable (pairOk s) := by
  unfold pairOk; infer_instance

/-- A handshake response that supplies the storage URL and the token either
both or neither. -/
def wfAuthResp (a : Resp) : Prop :=
  headerGet a.headers (gs "X-Storage-Url") = [] ↔
    headerGet a.headers (gs "X-Auth-Token") = []

instance (a : Resp) : Decidable (wfAuthResp a) := by
  unfold wfAuthResp; infer_instance

theorem authenticate_fst_pairOk (c : Session) (a : Resp) (hc : pairOk c)
    (ha : wfAuthResp a) : pairOk (authenticate c a).1 := by
  unfold authenticate
  split
  · exact hc
  · dsimp only
    split
    · exact ha
    · exact ha

/-- Session produced by either exit of `storageIter`. -/
def iterSess : (Session × GoError × Nat) ⊕ IterOk → Session
  | Sum.inl x => x.1
  | Sum.inr it => it.sess

theorem storageIter_pairOk (p : StorageOpts) (a0 t0 : Resp) (sess : Session)
    (hs : pairOk sess) (ha : wfAuthResp a0) :
    pairOk (iterSess (storageIter p a0 t0 sess)) := by
  unfold storageIter
  by_cases hb : authenticated sess = true
  · simp only [hb, if_pos]
    exact hs
  · simp only [hb, if_neg, Bool.not_eq_true]
    have hpair := authenticate_fst_pairOk sess a0 hs ha
    cases hae : (authenticate sess a0).2 with
    | some e => simpa [iterSess, hb] using hpair
    | none => simpa [iterSess, hb, hae] using hpair

theorem storageFinish_endSess (p : StorageOpts) (it : IterOk) :
    (storageFinish p it).endSess = it.sess := by
  unfold storageFinish
  cases parseHeaders it.resp p.errorMap with
  | some e => rfl
  | none =>
    by_cases hn : p.noResponse = true <;> simp [hn]

theorem storageLoop_endSess_pairOk (p : StorageOpts) :
    ∀ (r : Nat) (tr auth : Nat → Resp) (sess : Session), pairOk sess →
      (∀ i, wfAuthResp (auth i)) →
      pairOk (storageLoop p tr auth r sess).endSess := by
  intro r
  induction r with
  | zero =>
    intro tr auth sess hs ha
    unfold storageLoop
    have := storageIter_pairOk p (auth 0) (tr 0) sess hs (ha 0)
    cases hit : storageIter p (auth 0) (tr 0) sess with
    | inl x =>
      obtain ⟨s', e, aU⟩ := x
      rw [hit] at this
      simpa [iterSess] using this
    | inr it =>
      rw [hit] at this
      rw [storageFinish_endSess]
      simpa [iterSess] using this
  | succ r ih =>
    intro tr auth sess hs ha
    unfold storageLoop
    have := storageIter_pairOk p (auth 0) (tr 0) sess hs (ha 0)
    cases hit : storageIter p (auth 0) (tr 0) sess with
    | inl x =>
      obtain ⟨s', e, aU⟩ := x
      rw [hit] at this
      simpa [iterSess] using this
    | inr it =>
      rw [hit] at this
      by_cases h401 : it.resp.status = 401
      · simp only [h401, if_pos]
        exact ih _ _ _ (by constructor <;> intro <;> rfl) (fun i => ha _)
      · simp only [h401, if_neg, reduceIte]
        rw [storageFinish_endSess]
        simpa [iterSess] using this

/-- An operation touching the session: an authentication handshake (with the
transport's answer), an explicit `UnAuthenticate`, or a full dispatcher run. -/
inductive SessOp where
  | auth (resp : Resp)
  | unauth
  | storageOp (p : StorageOpts) (tr handshakes : Nat → Resp) (cRetries : Nat)

/-- Effect of one operation on the session. -/
def stepOp (s : Session) : SessOp → Session
  | SessOp.auth resp => (authenticate s resp).1
  | SessOp.unauth => unAuthenticate s
  | SessOp.storageOp p tr au cR => (storage cR p tr au s).endSess

/-- Run a sequence of operations from a starting session. -/
def runOps (s : Session) (ops : List SessOp) : Session := ops.foldl stepOp s

/-- Which operations keep the handshake answers well-formed. -/
def wfOp : SessOp → Prop
  | SessOp.auth resp => wfAuthResp resp
  | SessOp.unauth => True
  | SessOp.storageOp _ _ au _ => ∀ i, wfAuthResp (au i)

theorem runOps_pairOk : ∀ (ops : List SessOp) (s : Session), pairOk s →
    (∀ op ∈ ops, wfOp op) → pairOk (runOps s ops) := by
  intro ops
  induction ops with
  | nil => intro s hs _; exact hs
  | cons op rest ih =>
    intro s hs hwf
    have hstep : pairOk (stepOp s op) := by
      cases op with
      | auth resp => exact authenticate_fst_pairOk s resp hs (hwf _ (by simp) : wfOp (SessOp.auth resp))
      | unauth => exact ⟨fun _ => rfl, fun _ => rfl⟩
      | storageOp p tr au cR =>
        exact storageLoop_endSess_pairOk p _ tr au s hs
          (hwf _ (by simp) : wfOp (SessOp.storageOp p tr au cR))
    exact ih (stepOp s op) hstep (fun o ho => hwf o (by simp [ho]))

/-- C3 counterexample: a failed `Authenticate` whose 2xx handshake response
carries only the storage-URL header leaves `storageUrl` non-empty and
`authToken` empty — the pair is not set or cleared together. -/
theorem c3_session_pair_cex :
    ((authenticate initSession
        ⟨200, gs "200 OK", [(gs "X-Storage-Url", gs "http://stor")], []⟩).1.storageUrl ≠ [] ∧
     (authenticate initSession
        ⟨200, gs "200 OK", [(gs "X-Storage-Url", gs "http://stor")], []⟩).1.authToken = []) ∧
    (authenticate initSession
        ⟨200, gs "200 OK", [(gs "X-Storage-Url", gs "http://stor")], []⟩).2.isSome = true := by
  refine ⟨⟨?_, ?_⟩, ?_⟩ <;> decide

/-- C3 amended: provided every authentication handshake response in the
sequence supplies the storage-URL and token headers both-or-neither, every
sequence of Authenticate/UnAuthenticate/storage operations keeps the pair
invariant (the two fields are empty together); without that proviso a failed
Authenticate can leave exactly one field set.  `Authenticated()` is
equivalent to both fields being non-empty, always. -/
theorem c3_session_pair_amended (ops : List SessOp)
    (hwf : ∀ op ∈ ops, wfOp op) :
    pairOk (runOps initSession ops) ∧
    (∀ s : Session, authenticated s = true ↔ (s.storageUrl ≠ [] ∧ s.authToken ≠ [])) := by
  constructor
  · exact runOps_pairOk ops initSession ⟨fun _ => rfl, fun _ => rfl⟩ hwf
  · intro s
    simp [authenticated]

/-- C3 witness: a concrete sequence — handshake, logout, a dispatcher run —
keeps the pair invariant. -/
theorem c3_session_pair_witness :
    pairOk (runOps initSession
      [SessOp.auth ⟨200, gs "200 OK",
          [(gs "X-Storage-Url", gs "http://stor"), (gs "X-Auth-Token", gs "tok")], []⟩,
        SessOp.unauth,
        SessOp.storageOp { operation := gs "GET", errorMap := containerErrorMap }
          (fun _ => ⟨200, gs "200 OK", [], []⟩)
          (fun _ => ⟨200, gs "200 OK",
            [(gs "X-Storage-Url", gs "http://stor"), (gs "X-Auth-Token", gs "tok")], []⟩) 3]) ∧
    (∀ s : Session, authenticated s = true ↔ (s.storageUrl ≠ [] ∧ s.authToken ≠ [])) := by
  refine c3_session_pair_amended _ ?_
  intro op hop
  simp only [List.mem_cons, List.not_mem_nil, or_false] at hop
  rcases hop with rfl | rfl | rfl
  · show wfAuthResp _
    decide
  · exact trivial
  · intro i
    exact (by decide : wfAuthResp ⟨200, gs "200 OK",
      [(gs "X-Storage-Url", gs "http://stor"), (gs "X-Auth-Token", gs "tok")], []⟩)

end SessionInvariant

section RetryClaims

/-- The session a successful handshake response installs. -/
def authedSess (a : Resp) : Session :=
  ⟨headerGet a.headers (gs "X-Storage-Url"), headerGet a.headers (gs "X-Auth-Token")⟩

theorem parseHeaders_none (resp : Resp) (em : ErrorMap) (hlo : 200 ≤ resp.status)
    (hhi : resp.status ≤ 299) (hmap : errorMapGet em resp.status = none) :
    parseHeaders resp em = none := by
  simp only [parseHeaders, hmap]
  rw [if_neg (by omega)]

theorem parseHeaders_isSome (resp : Resp) (em : ErrorMap)
    (h : resp.status < 200 ∨ resp.status > 299) :
    ∃ e, parseHeaders resp em = some e := by
  unfold parseHeaders
  cases errorMapGet em resp.status with
  | some e => exact ⟨e, rfl⟩
  | none => exact ⟨_, by rw [if_pos h]⟩

theorem storageIter_unauth_good (p : StorageOpts) (a0 t0 : Resp)
    (h : goodAuthResp a0) :
    storageIter p a0 t0 initSession =
      Sum.inr ⟨t0, authedSess a0, 1,
        buildReqHeaders p.headers (authedSess a0).authToken,
        storageUrlOf p (authedSess a0)⟩ := by
  have hu : authenticated initSession = false := by decide
  simp only [storageIter, hu, Bool.false_eq_true, if_false,
    authenticate_good initSession a0 h]
  rfl

theorem storageIter_inr_resp (p : StorageOpts) (a0 t0 : Resp) (sess : Session)
    (it : IterOk) (h : storageIter p a0 t0 sess = Sum.inr it) : it.resp = t0 := by
  unfold storageIter at h
  by_cases hb : authenticated sess = true
  · simp only [hb, if_pos] at h
    cases h
    rfl
  · simp only [hb, Bool.false_eq_true, if_neg, if_false] at h
    cases hae : (authenticate sess a0).2 with
    | some e => rw [hae] at h; cases h
    | none => rw [hae] at h; cases h; rfl

theorem storageFinish_some (p : StorageOpts) (it : IterOk) (e : GoError)
    (hp : parseHeaders it.resp p.errorMap = some e) :
    storageFinish p it =
      ⟨none, [], some e, it.sess, it.authUsed, 1, true, 0, some it.resp,
        it.reqHeaders, it.url⟩ := by
  unfold storageFinish
  rw [hp]

theorem storageFinish_none_fields (p : StorageOpts) (it : IterOk)
    (hp : parseHeaders it.resp p.errorMap = none) :
    (storageFinish p it).err = none ∧
    (storageFinish p it).handshakes = it.authUsed ∧
    (storageFinish p it).requests = 1 ∧
    (storageFinish p it).resp = some it.resp ∧
    (storageFinish p it).bodyClosed = p.noResponse ∧
    (storageFinish p it).bodyRead = 0 ∧
    (storageFinish p it).finalResp = some it.resp ∧
    (storageFinish p it).headers = readHeaders it.resp ∧
    (storageFinish p it).lastReqHeaders = it.reqHeaders := by
  unfold storageFinish
  rw [hp]
  by_cases hn : p.noResponse = true <;> simp [hn]

theorem storageFinish_requests (p : StorageOpts) (it : IterOk) :
    (storageFinish p it).requests = 1 := by
  unfold storageFinish
  cases parseHeaders it.resp p.errorMap with
  | some e => rfl
  | none => by_cases hn : p.noResponse = true <;> simp [hn]

/-- With the budget at zero, or a non-401 first answer, the loop performs at
most one request (none at all if the handshake fails). -/
theorem storageLoop_no_retry (p : StorageOpts) (tr auth : Nat → Resp) (r : Nat)
    (sess : Session) (h : (tr 0).status ≠ 401 ∨ r = 0) :
    (storageLoop p tr auth r sess).requests ≤ 1 := by
  cases r with
  | zero =>
    unfold storageLoop
    cases hit : storageIter p (auth 0) (tr 0) sess with
    | inl x => obtain ⟨s', e, aU⟩ := x; simp
    | inr it => rw [storageFinish_requests]
  | succ r' =>
    have hne : (tr 0).status ≠ 401 := by
      rcases h with h | h
      · exact h
      · cases h
    unfold storageLoop
    cases hit : storageIter p (auth 0) (tr 0) sess with
    | inl x => obtain ⟨s', e, aU⟩ := x; simp
    | inr it =>
      have hresp : it.resp = tr 0 := storageIter_inr_resp p (auth 0) (tr 0) sess it hit
      dsimp only
      rw [if_neg (by rw [hresp]; exact hne), storageFinish_requests]

/-- Breaking run: from an unauthenticated session with a good handshake, a
non-401 first answer (or an exhausted budget) ends the loop at the first
response. -/
theorem storageLoop_break_unauth (p : StorageOpts) (tr auth : Nat → Resp) (r : Nat)
    (hg : goodAuthResp (auth 0)) (hbreak : (tr 0).status ≠ 401 ∨ r = 0) :
    storageLoop p tr auth r initSession =
      storageFinish p ⟨tr 0, authedSess (auth 0), 1,
        buildReqHeaders p.headers (authedSess (auth 0)).authToken,
        storageUrlOf p (authedSess (auth 0))⟩ := by
  cases r with
  | zero => simp only [storageLoop, storageIter_unauth_good p _ _ hg]
  | succ r' =>
    have hne : (tr 0).status ≠ 401 := by
      rcases hbreak with h | h
      · exact h
      · cases h
    simp only [storageLoop, storageIter_unauth_good p _ _ hg]
    rw [if_neg hne]

/-- Retrying step: from an unauthenticated session with a good handshake, a
401 first answer with budget remaining re-enters the loop on the shifted
transport streams. -/
theorem storageLoop_step_unauth (p : StorageOpts) (tr auth : Nat → Resp) (r' : Nat)
    (hg : goodAuthResp (auth 0)) (h401 : (tr 0).status = 401) :
    storageLoop p tr auth (r' + 1) initSession =
      { storageLoop p (fun i => tr (i + 1)) (fun i => auth (i + 1)) r' initSession with
          handshakes :=
            (storageLoop p (fun i => tr (i + 1)) (fun i => auth (i + 1)) r'
              initSession).handshakes + 1,
          requests :=
            (storageLoop p (fun i => tr (i + 1)) (fun i => auth (i + 1)) r'
              initSession).requests + 1 } := by
  simp only [storageLoop, storageIter_unauth_good p _ _ hg]
  rw [if_pos h401]
  rfl

theorem storageLoop_retry_master :
    ∀ (k : Nat) (p : StorageOpts) (tr auth : Nat → Resp) (r : Nat),
      (∀ i, goodAuthResp (auth i)) →
      (∀ i, i < k → (tr i).status = 401) →
      200 ≤ (tr k).status → (tr k).status ≤ 299 →
      errorMapGet p.errorMap (tr k).status = none →
      ((k ≤ r →
        (storageLoop p tr auth r initSession).err = none ∧
        (storageLoop p tr auth r initSession).handshakes = k + 1 ∧
        (storageLoop p tr auth r initSession).requests = k + 1) ∧
      (r < k →
        (storageLoop p tr auth r initSession).err = parseHeaders (tr r) p.errorMap ∧
        (storageLoop p tr auth r initSession).handshakes = r + 1 ∧
        (storageLoop p tr auth r initSession).requests = r + 1)) := by
  intro k
  induction k with
  | zero =>
    intro p tr auth r hauth h401 hlo hhi hmap
    refine ⟨fun _ => ?_, fun hrk => absurd hrk (by omega)⟩
    have hne : (tr 0).status ≠ 401 := by omega
    rw [storageLoop_break_unauth p tr auth r (hauth 0) (Or.inl hne)]
    have hp : parseHeaders (tr 0) p.errorMap = none :=
      parseHeaders_none (tr 0) p.errorMap hlo hhi hmap
    obtain ⟨he, hh, hq, _⟩ := storageFinish_none_fields p
      ⟨tr 0, authedSess (auth 0), 1,
        buildReqHeaders p.headers (authedSess (auth 0)).authToken,
        storageUrlOf p (authedSess (auth 0))⟩ hp
    exact ⟨he, hh, hq⟩
  | succ k' ih =>
    intro p tr auth r hauth h401 hlo hhi hmap
    have h0 : (tr 0).status = 401 := h401 0 (by omega)
    cases r with
    | zero =>
      refine ⟨fun hkr => absurd hkr (by omega), fun _ => ?_⟩
      rw [storageLoop_break_unauth p tr auth 0 (hauth 0) (Or.inr rfl)]
      obtain ⟨e, hp⟩ := parseHeaders_isSome (tr 0) p.errorMap (by omega)
      rw [storageFinish_some p _ e hp]
      exact ⟨by rw [hp], rfl, rfl⟩
    | succ r' =>
      rw [storageLoop_step_unauth p tr auth r' (hauth 0) h0]
      have ihr := ih p (fun i => tr (i + 1)) (fun i => auth (i + 1)) r'
        (fun i => hauth (i + 1)) (fun i hi => h401 (i + 1) (by omega)) hlo hhi hmap
      constructor
      · intro hkr
        obtain ⟨he, hh, hq⟩ := ihr.1 (by omega)
        refine ⟨by simpa using he, ?_, ?_⟩ <;> simp [hh, hq]
      · intro hrk
        obtain ⟨he, hh, hq⟩ := ihr.2 (by omega)
        refine ⟨by simpa using he, ?_, ?_⟩ <;> simp [hh, hq]

/-- C1: against a transport that answers the resource request with 401
exactly `k` times and then a success status, starting unauthenticated with
handshakes that always succeed: with retry budget `r ≥ k` the dispatcher
loop succeeds and performs exactly `k + 1` handshakes (and `k + 1`
requests); with `r < k` it fails with the 401-classified error after `r + 1`
handshakes; and a 401 answer with retries remaining is the only condition
under which the loop repeats — any other first answer, or an exhausted
budget, ends the loop at one request. -/
theorem c1_retry_bound (p : StorageOpts) (tr auth : Nat → Resp) (k r : Nat)
    (hauth : ∀ i, goodAuthResp (auth i))
    (h401 : ∀ i, i < k → (tr i).status = 401)
    (hlo : 200 ≤ (tr k).status) (hhi : (tr k).status ≤ 299)
    (hmap : errorMapGet p.errorMap (tr k).status = none) :
    (k ≤ r →
      (storageLoop p tr auth r initSession).err = none ∧
      (storageLoop p tr auth r initSession).handshakes = k + 1 ∧
      (storageLoop p tr auth r initSession).requests = k + 1) ∧
    (r < k →
      (storageLoop p tr auth r initSession).err = parseHeaders (tr r) p.errorMap ∧
      (parseHeaders (tr r) p.errorMap).isSome = true ∧
      (storageLoop p tr auth r initSession).handshakes = r + 1) ∧
    (∀ (tr2 auth2 : Nat → Resp) (r2 : Nat) (sess : Session),
      ((tr2 0).status ≠ 401 ∨ r2 = 0) →
      (storageLoop p tr2 auth2 r2 sess).requests ≤ 1) := by
  have hm := storageLoop_retry_master k p tr auth r hauth h401 hlo hhi hmap
  refine ⟨hm.1, fun hrk => ?_, fun tr2 auth2 r2 sess hb =>
    storageLoop_no_retry p tr2 auth2 r2 sess hb⟩
  obtain ⟨he, hh, _⟩ := hm.2 hrk
  have hs : (tr r).status = 401 := h401 r hrk
  obtain ⟨e, hp⟩ := parseHeaders_isSome (tr r) p.errorMap (by omega)
  exact ⟨he, by rw [hp]; rfl, hh⟩

/-- C1 witness: one 401 then success; with budget 1 the run succeeds after 2
handshakes and 2 requests, with budget 0 it fails with the generic HTTP 401
error after 1 handshake. -/
theorem c1_retry_bound_witness :
    ((storageLoop { operation := gs "GET", errorMap := containerErrorMap }
        (fun i => if i = 0 then ⟨401, gs "401 Unauthorized", [], []⟩
          else ⟨200, gs "200 OK", [], []⟩)
        (fun _ => ⟨200, gs "200 OK",
          [(gs "X-Storage-Url", gs "http://stor"), (gs "X-Auth-Token", gs "tok")], []⟩)
        1 initSession).err = none ∧
      (storageLoop { operation := gs "GET", errorMap := containerErrorMap }
        (fun i => if i = 0 then ⟨401, gs "401 Unauthorized", [], []⟩
          else ⟨200, gs "200 OK", [], []⟩)
        (fun _ => ⟨200, gs "200 OK",
          [(gs "X-Storage-Url", gs "http://stor"), (gs "X-Auth-Token", gs "tok")], []⟩)
        1 initSession).handshakes = 2 ∧
      (storageLoop { operation := gs "GET", errorMap := containerErrorMap }
        (fun i => if i = 0 then ⟨401, gs "401 Unauthorized", [], []⟩
          else ⟨200, gs "200 OK", [], []⟩)
        (fun _ => ⟨200, gs "200 OK",
          [(gs "X-Storage-Url", gs "http://stor"), (gs "X-Auth-Token", gs "tok")], []⟩)
        1 initSession).requests = 2) ∧
    ((storageLoop { operation := gs "GET", errorMap := containerErrorMap }
        (fun i => if i = 0 then ⟨401, gs "401 Unauthorized", [], []⟩
          else ⟨200, gs "200 OK", [], []⟩)
        (fun _ => ⟨200, gs "200 OK",
          [(gs "X-Storage-Url", gs "http://stor"), (gs "X-Auth-Token", gs "tok")], []⟩)
        0 initSession).err =
      some (genericHTTPError 401 (gs "401 Unauthorized")) ∧
      (storageLoop { operation := gs "GET", errorMap := containerErrorMap }
        (fun i => if i = 0 then ⟨401, gs "401 Unauthorized", [], []⟩
          else ⟨200, gs "200 OK", [], []⟩)
        (fun _ => ⟨200, gs "200 OK",
          [(gs "X-Storage-Url", gs "http://stor"), (gs "X-Auth-Token", gs "tok")], []⟩)
        0 initSession).handshakes = 1) := by
  have hg : goodAuthResp ⟨200, gs "200 OK",
      [(gs "X-Storage-Url", gs "http://stor"), (gs "X-Auth-Token", gs "tok")], []⟩ := by
    decide
  have h1 := c1_retry_bound { operation := gs "GET", errorMap := containerErrorMap }
    (fun i => if i = 0 then ⟨401, gs "401 Unauthorized", [], []⟩
      else ⟨200, gs "200 OK", [], []⟩)
    (fun _ => ⟨200, gs "200 OK",
      [(gs "X-Storage-Url", gs "http://stor"), (gs "X-Auth-Token", gs "tok")], []⟩)
    1 1 (fun _ => hg)
    (fun i hi => by
      have hi0 : i = 0 := by omega
      subst hi0
      rfl)
    (by decide) (by decide) (by decide)
  have h2 := c1_retry_bound { operation := gs "GET", errorMap := containerErrorMap }
    (fun i => if i = 0 then ⟨401, gs "401 Unauthorized", [], []⟩
      else ⟨200, gs "200 OK", [], []⟩)
    (fun _ => ⟨200, gs "200 OK",
      [(gs "X-Storage-Url", gs "http://stor"), (gs "X-Auth-Token", gs "tok")], []⟩)
    1 0 (fun _ => hg)
    (fun i hi => by
      have hi0 : i = 0 := by omega
      subst hi0
      rfl)
    (by decide) (by decide) (by decide)
  obtain ⟨he1, hh1, hq1⟩ := h1.1 (by omega)
  obtain ⟨he2, _, hh2⟩ := h2.2.1 (by omega)
  refine ⟨⟨he1, hh1, hq1⟩, ?_, hh2⟩
  rw [he2]
  decide

end RetryClaims

section BodyClaims

theorem storageLoop_success_body (p : StorageOpts) :
    ∀ (r : Nat) (tr auth : Nat → Resp) (sess : Session),
      (storageLoop p tr auth r sess).err = none →
      (storageLoop p tr auth r sess).bodyClosed = p.noResponse ∧
      (storageLoop p tr auth r sess).bodyRead = 0 := by
  intro r
  induction r with
  | zero =>
    intro tr auth sess herr
    simp only [storageLoop] at herr ⊢
    cases hit : storageIter p (auth 0) (tr 0) sess with
    | inl x =>
      obtain ⟨s', e, aU⟩ := x
      rw [hit] at herr
      simp at herr
    | inr it =>
      rw [hit] at herr
      dsimp only at herr ⊢
      cases hp : parseHeaders it.resp p.errorMap with
      | some e =>
        rw [storageFinish_some p it e hp] at herr
        simp at herr
      | none =>
        obtain ⟨_, _, _, _, hbc, hbr, _⟩ := storageFinish_none_fields p it hp
        exact ⟨hbc, hbr⟩
  | succ r' ih =>
    intro tr auth sess herr
    simp only [storageLoop] at herr ⊢
    cases hit : storageIter p (auth 0) (tr 0) sess with
    | inl x =>
      obtain ⟨s', e, aU⟩ := x
      rw [hit] at herr
      simp at herr
    | inr it =>
      rw [hit] at herr
      dsimp only at herr ⊢
      by_cases h401 : it.resp.status = 401
      · rw [if_pos h401] at herr ⊢
        have herr' : (storageLoop p (fun i => tr (i + 1))
            (fun i => auth (i + it.authUsed)) r' (unAuthenticate it.sess)).err = none := by
          simpa using herr
        have := ih (fun i => tr (i + 1)) (fun i => auth (i + it.authUsed))
          (unAuthenticate it.sess) herr'
        simpa using this
      · rw [if_neg h401] at herr ⊢
        cases hp : parseHeaders it.resp p.errorMap with
        | some e =>
          rw [storageFinish_some p it e hp] at herr
          simp at herr
        | none =>
          obtain ⟨_, _, _, _, hbc, hbr, _⟩ := storageFinish_none_fields p it hp
          exact ⟨hbc, hbr⟩

/-- C7 counterexample: a successful `noResponse` dispatch of a response with
a 10-byte body closes the body having read none of it — the body is not
drained before closing. -/
theorem c7_body_drain_cex :
    (storage 3 { operation := gs "HEAD", errorMap := containerErrorMap, noResponse := true }
        (fun _ => ⟨204, gs "204 No Content", [], List.replicate 10 7⟩)
        (fun _ => ⟨200, gs "200 OK", [], []⟩) ⟨gs "u", gs "t"⟩).err = none ∧
    (storage 3 { operation := gs "HEAD", errorMap := containerErrorMap, noResponse := true }
        (fun _ => ⟨204, gs "204 No Content", [], List.replicate 10 7⟩)
        (fun _ => ⟨200, gs "200 OK", [], []⟩) ⟨gs "u", gs "t"⟩).bodyClosed = true ∧
    (storage 3 { operation := gs "HEAD", errorMap := containerErrorMap, noResponse := true }
        (fun _ => ⟨204, gs "204 No Content", [], List.replicate 10 7⟩)
        (fun _ => ⟨200, gs "200 OK", [], []⟩) ⟨gs "u", gs "t"⟩).bodyRead = 0 ∧
    ((storage 3 { operation := gs "HEAD", errorMap := containerErrorMap, noResponse := true }
        (fun _ => ⟨204, gs "204 No Content", [], List.replicate 10 7⟩)
        (fun _ => ⟨200, gs "200 OK", [], []⟩) ⟨gs "u", gs "t"⟩).finalResp.map
      (fun resp => resp.body.length)) = some 10 := by
  refine ⟨?_, ?_, ?_, ?_⟩ <;> decide

/-- C7 amended: on every successfully classified dispatch the dispatcher
closes the response body when `noResponse` is set — without reading (hence
without draining) it — and leaves the body open and unread for the caller
when the flag is unset. -/
theorem c7_body_close_amended (cR : Nat) (p : StorageOpts) (tr auth : Nat → Resp)
    (sess : Session) (hok : (storage cR p tr auth sess).err = none) :
    (storage cR p tr auth sess).bodyClosed = p.noResponse ∧
    (storage cR p tr auth sess).bodyRead = 0 :=
  storageLoop_success_body p (if p.retries = 0 then cR else p.retries) tr auth sess hok

/-- C7 witness: with the flag unset the body comes back open and unread. -/
theorem c7_body_close_witness :
    (storage 3 { operation := gs "GET", errorMap := containerErrorMap }
        (fun _ => ⟨200, gs "200 OK", [], [1, 2, 3]⟩)
        (fun _ => ⟨200, gs "200 OK", [], []⟩) ⟨gs "u", gs "t"⟩).bodyClosed = false ∧
    (storage 3 { operation := gs "GET", errorMap := containerErrorMap }
        (fun _ => ⟨200, gs "200 OK", [], [1, 2, 3]⟩)
        (fun _ => ⟨200, gs "200 OK", [], []⟩) ⟨gs "u", gs "t"⟩).bodyRead = 0 := by
  have h := c7_body_close_amended 3
    { operation := gs "GET", errorMap := containerErrorMap }
    (fun _ => ⟨200, gs "200 OK", [], [1, 2, 3]⟩)
    (fun _ => ⟨200, gs "200 OK", [], []⟩) ⟨gs "u", gs "t"⟩ (by decide)
  exact h

end BodyClaims

section RequestHeaderClaims

theorem foldl_headerAdd (l : Headers) (acc : List (GoStr × GoStr)) :
    l.foldl (fun a kv => headerAdd a kv.1 kv.2) acc =
      acc ++ l.map (fun kv => (canonicalHeaderKey kv.1, kv.2)) := by
  induction l generalizing acc with
  | nil => simp
  | cons kv rest ih =>
    simp only [List.foldl_cons, List.map_cons]
    rw [ih]
    simp [headerAdd]

theorem buildReqHeaders_eq (hs : Headers) (tok : GoStr) :
    buildReqHeaders (some hs) tok =
      hs.map (fun kv => (canonicalHeaderKey kv.1, kv.2)) ++
        [(gs "User-Agent", DefaultUserAgent), (gs "X-Auth-Token", tok)] := by
  have hua : canonicalHeaderKey (gs "User-Agent") = gs "User-Agent" := by decide
  have hxa : canonicalHeaderKey (gs "X-Auth-Token") = gs "X-Auth-Token" := by decide
  show headerAdd (headerAdd (hs.foldl (fun acc kv => headerAdd acc kv.1 kv.2) [])
    (gs "User-Agent") DefaultUserAgent) (gs "X-Auth-Token") tok = _
  rw [foldl_headerAdd]
  simp [headerAdd, hua, hxa]

theorem mapGet_append (k : GoStr) (a b : List (GoStr × GoStr)) :
    mapGet k (a ++ b) =
      match mapGet k a with
      | some v => some v
      | none => mapGet k b := by
  induction a with
  | nil => simp [mapGet]
  | cons kv rest ih =>
    by_cases h : kv.1 = k <;> simp [mapGet, h, ih]

/-- C6 counterexample: a caller-supplied `User-Agent` does not replace the
default — the outbound request carries both values, the caller's first and
the default `goswift/1.0` after it, also through a full dispatcher run. -/
theorem c6_caller_headers_cex :
    (buildReqHeaders (some [(gs "User-Agent", gs "custom-agent")]) (gs "tok")).filter
        (fun kv => kv.1 = gs "User-Agent") =
      [(gs "User-Agent", gs "custom-agent"), (gs "User-Agent", DefaultUserAgent)] ∧
    (gs "User-Agent", DefaultUserAgent) ∈
      (storage 3
        { operation := gs "GET", errorMap := containerErrorMap,
          headers := some [(gs "User-Agent", gs "custom-agent")] }
        (fun _ => ⟨200, gs "200 OK", [], []⟩)
        (fun _ => ⟨200, gs "200 OK", [], []⟩) ⟨gs "u", gs "t"⟩).lastReqHeaders ∧
    (gs "User-Agent", gs "custom-agent") ∈
      (storage 3
        { operation := gs "GET", errorMap := containerErrorMap,
          headers := some [(gs "User-Agent", gs "custom-agent")] }
        (fun _ => ⟨200, gs "200 OK", [], []⟩)
        (fun _ => ⟨200, gs "200 OK", [], []⟩) ⟨gs "u", gs "t"⟩).lastReqHeaders := by
  refine ⟨?_, ?_, ?_⟩ <;> decide

/-- C6 amended: the outbound request carries the caller's value as the first
value for a colliding key (so `Header.Get` reads the caller's value), but
the default `User-Agent` is appended as well rather than replaced, and the
auth token header is attached. -/
theorem c6_caller_headers_amended (hs : Headers) (tok k v : GoStr)
    (hfirst : mapGet (canonicalHeaderKey k)
        (hs.map (fun kv => (canonicalHeaderKey kv.1, kv.2))) = some v) :
    headerGet (buildReqHeaders (some hs) tok) k = v ∧
    (gs "User-Agent", DefaultUserAgent) ∈ buildReqHeaders (some hs) tok ∧
    (gs "X-Auth-Token", tok) ∈ buildReqHeaders (some hs) tok := by
  rw [buildReqHeaders_eq]
  refine ⟨?_, ?_, ?_⟩
  · unfold headerGet
    rw [mapGet_append, hfirst]
  · simp
  · simp

/-- C6 witness: a caller `User-Agent` is the value `Get` reads, the default
is still appended, and the token header is attached. -/
theorem c6_caller_headers_witness :
    headerGet (buildReqHeaders (some [(gs "User-Agent", gs "custom-agent")]) (gs "tok"))
      (gs "User-Agent") = gs "custom-agent" ∧
    (gs "User-Agent", DefaultUserAgent) ∈
      buildReqHeaders (some [(gs "User-Agent", gs "custom-agent")]) (gs "tok") ∧
    (gs "X-Auth-Token", gs "tok") ∈
      buildReqHeaders (some [(gs "User-Agent", gs "custom-agent")]) (gs "tok") :=
  c6_caller_headers_amended [(gs "User-Agent", gs "custom-agent")] (gs "tok")
    (gs "User-Agent") (gs "custom-agent") (by decide)

end RequestHeaderClaims

section UploadClaims

theorem mapGet_mapInsert_self (k v : GoStr) (m : List (GoStr × GoStr)) :
    mapGet k (mapInsert k v m) = some v := by
  induction m with
  | nil => simp [mapInsert, mapGet]
  | cons kv rest ih =>
    by_cases h : kv.1 = k <;> simp [mapInsert, mapGet, h, ih]

/-- C8: with a non-empty precomputed `Hash`, `ObjectPut` sends the hash as
the `Etag` request header, computes no local digest (its result does not
depend on the digest function nor on the `checkHash` flag), and its error is
exactly the dispatcher's error — never a local `ObjectCorrupted` check. -/
theorem c8_objectput_precomputed (md5a md5b : List Nat → GoStr)
    (container objectName : GoStr) (contents : List Nat) (cka ckb : Bool)
    (hashStr contentType : GoStr) (h : Headers) (tr auth : Nat → Resp)
    (sess : Session) (cR : Nat) (hne : hashStr ≠ []) :
    mapGet (gs "Etag") (objectPutExtraHeaders contentType hashStr h) = some hashStr ∧
    objectPut md5a container objectName contents cka hashStr contentType h tr auth sess cR =
      objectPut md5b container objectName contents ckb hashStr contentType h tr auth sess cR ∧
    (objectPut md5a container objectName contents cka hashStr contentType h tr auth sess cR).err =
      (storage cR
        { container := container, objectName := objectName, operation := gs "PUT",
          headers := some (objectPutExtraHeaders contentType hashStr h),
          noResponse := true, errorMap := objectErrorMap } tr auth sess).err := by
  refine ⟨?_, ?_, ?_⟩
  · unfold objectPutExtraHeaders
    rw [if_pos hne]
    exact mapGet_mapInsert_self _ _ _
  · unfold objectPut
    rw [if_pos hne, if_pos hne]
    rfl
  · unfold objectPut
    rw [if_pos hne]
    cases hres : (storage cR
        { container := container, objectName := objectName, operation := gs "PUT",
          headers := some (objectPutExtraHeaders contentType hashStr h),
          noResponse := true, errorMap := objectErrorMap } tr auth sess).err with
    | some e => simp [hres]
    | none => simp [hres]

/-- C8 witness: a concrete upload with a precomputed hash sends it as `Etag`
and succeeds or fails exactly as the dispatcher does. -/
theorem c8_objectput_precomputed_witness :
    mapGet (gs "Etag") (objectPutExtraHeaders (gs "text/plain") (gs "abc123") []) =
      some (gs "abc123") ∧
    objectPut (fun _ => gs "d41d") (gs "c") (gs "o") [1, 2] true (gs "abc123")
        (gs "text/plain") [] (fun _ => ⟨201, gs "201 Created", [], []⟩)
        (fun _ => ⟨200, gs "200 OK", [], []⟩) ⟨gs "u", gs "t"⟩ 3 =
      objectPut (fun _ => gs "ffff") (gs "c") (gs "o") [1, 2] false (gs "abc123")
        (gs "text/plain") [] (fun _ => ⟨201, gs "201 Created", [], []⟩)
        (fun _ => ⟨200, gs "200 OK", [], []⟩) ⟨gs "u", gs "t"⟩ 3 := by
  have hc := c8_objectput_precomputed (fun _ => gs "d41d") (fun _ => gs "ffff")
    (gs "c") (gs "o") [1, 2] true false (gs "abc123") (gs "text/plain") []
    (fun _ => ⟨201, gs "201 Created", [], []⟩)
    (fun _ => ⟨200, gs "200 OK", [], []⟩) ⟨gs "u", gs "t"⟩ 3 (by decide)
  exact ⟨hc.1, hc.2.1⟩

end UploadClaims

section DownloadClaims

theorem objectGet_len_mismatch_aux (md5x : List Nat → GoStr) :
    (objectGet md5x (gs "c") (gs "o") true []
      (fun _ => ⟨200, gs "200 OK", [(gs "Content-Length", gs "50")],
        List.replicate 40 0⟩)
      (fun _ => ⟨200, gs "200 OK", [], []⟩) ⟨gs "u", gs "t"⟩ 3).err =
      some ObjectCorrupted := by
  have he : (storage 3
      { container := gs "c", objectName := gs "o", operation := gs "GET",
        errorMap := objectErrorMap, headers := some [] }
      (fun _ => ⟨200, gs "200 OK", [(gs "Content-Length", gs "50")],
        List.replicate 40 0⟩)
      (fun _ => ⟨200, gs "200 OK", [], []⟩) ⟨gs "u", gs "t"⟩).err = none := by
    decide
  have hr : (storage 3
      { container := gs "c", objectName := gs "o", operation := gs "GET",
        errorMap := objectErrorMap, headers := some [] }
      (fun _ => ⟨200, gs "200 OK", [(gs "Content-Length", gs "50")],
        List.replicate 40 0⟩)
      (fun _ => ⟨200, gs "200 OK", [], []⟩) ⟨gs "u", gs "t"⟩).resp =
      some ⟨200, gs "200 OK", [(gs "Content-Length", gs "50")],
        List.replicate 40 0⟩ := by
    decide
  cases hd : md5x (List.replicate 40 (0 : Nat)) with
  | nil =>
    simp only [objectGet, he, hr, hd]
    decide
  | cons c cs =>
    simp only [objectGet, he, hr, hd]
    have hget : goToLower (headerGet [(gs "Content-Length", gs "50")] (gs "Etag")) =
        [] := by decide
    rw [hget]
    rw [if_pos (by exact ⟨trivial, by simp⟩)]

/-- C9: with `checkHash` on and a successful dispatch, `ObjectGet` compares
the digest of exactly the copied body bytes (lower-cased) against the
response `Etag` and the byte count against a declared `Content-Length`;
either mismatch yields `ObjectCorrupted` (no retry — the result is final),
and in particular a response declaring `Content-Length: 50` with a 40-byte
body yields `ObjectCorrupted` whatever the digest function. -/
theorem c9_objectget_verification (md5hex : List Nat → GoStr)
    (container objectName : GoStr) (h : Headers) (tr auth : Nat → Resp)
    (sess : Session) (cR : Nat) (resp : Resp)
    (hok : (storage cR
      { container := container, objectName := objectName, operation := gs "GET",
        errorMap := objectErrorMap, headers := some h } tr auth sess).err = none)
    (hresp : (storage cR
      { container := container, objectName := objectName, operation := gs "GET",
        errorMap := objectErrorMap, headers := some h } tr auth sess).resp = some resp) :
    (objectGet md5hex container objectName true h tr auth sess cR).written =
      resp.body.length ∧
    (goToLower (headerGet resp.headers (gs "Etag")) ≠ md5hex resp.body →
      (objectGet md5hex container objectName true h tr auth sess cR).err =
        some ObjectCorrupted) ∧
    (goToLower (headerGet resp.headers (gs "Etag")) = md5hex resp.body →
      headerGet resp.headers (gs "Content-Length") = [] →
      (objectGet md5hex container objectName true h tr auth sess cR).err = none) ∧
    (∀ n : Int, goToLower (headerGet resp.headers (gs "Etag")) = md5hex resp.body →
      getInt64FromHeader resp (gs "Content-Length") = Except.ok n →
      headerGet resp.headers (gs "Content-Length") ≠ [] →
      ((n ≠ (resp.body.length : Int) →
        (objectGet md5hex container objectName true h tr auth sess cR).err =
          some ObjectCorrupted) ∧
       (n = (resp.body.length : Int) →
        (objectGet md5hex container objectName true h tr auth sess cR).err = none))) ∧
    (∀ md5x : List Nat → GoStr,
      (objectGet md5x (gs "c") (gs "o") true []
        (fun _ => ⟨200, gs "200 OK", [(gs "Content-Length", gs "50")],
          List.replicate 40 0⟩)
        (fun _ => ⟨200, gs "200 OK", [], []⟩) ⟨gs "u", gs "t"⟩ 3).err =
      some ObjectCorrupted) := by
  have hform : objectGet md5hex container objectName true h tr auth sess cR =
      (if goToLower (headerGet resp.headers (gs "Etag")) ≠ md5hex resp.body then
        ⟨(storage cR
          { container := container, objectName := objectName, operation := gs "GET",
            errorMap := objectErrorMap, headers := some h } tr auth sess).headers,
          some ObjectCorrupted, resp.body.length,
          storage cR
          { container := container, objectName := objectName, operation := gs "GET",
            errorMap := objectErrorMap, headers := some h } tr auth sess⟩
      else if headerGet resp.headers (gs "Content-Length") ≠ [] then
        match getInt64FromHeader resp (gs "Content-Length") with
        | Except.error e =>
          ⟨(storage cR
            { container := container, objectName := objectName, operation := gs "GET",
              errorMap := objectErrorMap, headers := some h } tr auth sess).headers,
            some e, resp.body.length,
            storage cR
            { container := container, objectName := objectName, operation := gs "GET",
              errorMap := objectErrorMap, headers := some h } tr auth sess⟩
        | Except.ok n =>
          if n ≠ (resp.body.length : Int) then
            ⟨(storage cR
              { container := container, objectName := objectName, operation := gs "GET",
                errorMap := objectErrorMap, headers := some h } tr auth sess).headers,
              some ObjectCorrupted, resp.body.length,
              storage cR
              { container := container, objectName := objectName, operation := gs "GET",
                errorMap := objectErrorMap, headers := some h } tr auth sess⟩
          else
            ⟨(storage cR
              { container := container, objectName := objectName, operation := gs "GET",
                errorMap := objectErrorMap, headers := some h } tr auth sess).headers,
              none, resp.body.length,
              storage cR
              { container := container, objectName := objectName, operation := gs "GET",
                errorMap := objectErrorMap, headers := some h } tr auth sess⟩
      else
        ⟨(storage cR
          { container := container, objectName := objectName, operation := gs "GET",
            errorMap := objectErrorMap, headers := some h } tr auth sess).headers,
          none, resp.body.length,
          storage cR
          { container := container, objectName := objectName, operation := gs "GET",
            errorMap := objectErrorMap, headers := some h } tr auth sess⟩) := by
    simp only [objectGet, hok, hresp]
    simp
  refine ⟨?_, ?_, ?_, ?_, ?_⟩
  · rw [hform]
    by_cases h1 : goToLower (headerGet resp.headers (gs "Etag")) ≠ md5hex resp.body
    · rw [if_pos h1]
    · rw [if_neg h1]
      by_cases h2 : headerGet resp.headers (gs "Content-Length") ≠ []
      · rw [if_pos h2]
        cases hn : getInt64FromHeader resp (gs "Content-Length") with
        | error e => rfl
        | ok n =>
          dsimp only
          by_cases h3 : n ≠ (resp.body.length : Int)
          · rw [if_pos h3]
          · rw [if_neg h3]
      · rw [if_neg h2]
  · intro hd
    rw [hform, if_pos hd]
  · intro hd hcl
    rw [hform, if_neg (by simp [hd]), if_neg (by simp [hcl])]
  · intro n hd hint hcl
    rw [hform, if_neg (by simp [hd]), if_pos hcl, hint]
    dsimp only
    constructor
    · intro h3
      rw [if_pos h3]
    · intro h3
      rw [if_neg (by simp [h3])]
  · intro md5x
    exact objectGet_len_mismatch_aux md5x

end DownloadClaims

/-- C9 witness: matching digest and length succeed; the byte count equals
the body length. -/
theorem c9_objectget_verification_witness :
    (objectGet (fun _ => gs "abc") (gs "c") (gs "o") true []
      (fun _ => ⟨200, gs "200 OK",
        [(gs "Etag", gs "ABC"), (gs "Content-Length", gs "3")], [1, 2, 3]⟩)
      (fun _ => ⟨200, gs "200 OK", [], []⟩) ⟨gs "u", gs "t"⟩ 3).err = none ∧
    (objectGet (fun _ => gs "abc") (gs "c") (gs "o") true []
      (fun _ => ⟨200, gs "200 OK",
        [(gs "Etag", gs "ABC"), (gs "Content-Length", gs "3")], [1, 2, 3]⟩)
      (fun _ => ⟨200, gs "200 OK", [], []⟩) ⟨gs "u", gs "t"⟩ 3).written = 3 := by
  have hc := c9_objectget_verification (fun _ => gs "abc") (gs "c") (gs "o") []
    (fun _ => ⟨200, gs "200 OK",
      [(gs "Etag", gs "ABC"), (gs "Content-Length", gs "3")], [1, 2, 3]⟩)
    (fun _ => ⟨200, gs "200 OK", [], []⟩) ⟨gs "u", gs "t"⟩ 3
    ⟨200, gs "200 OK", [(gs "Etag", gs "ABC"), (gs "Content-Length", gs "3")], [1, 2, 3]⟩
    (by decide) (by decide)
  constructor
  · exact (hc.2.2.2.1 3 (by decide) (by decide) (by decide)).2 (by decide)
  · simpa using hc.1

section CodecLemmas

/-- The canonical-casing flag after consuming a list of characters. -/
def upAfter (u : Bool) : List Char → Bool
  | [] => u
  | c :: cs => upAfter (c = '-') cs

theorem canonAux_append (u : Bool) (p k : List Char) :
    canonAux u (p ++ k) = canonAux u p ++ canonAux (upAfter u p) k := by
  induction p generalizing u with
  | nil => rfl
  | cons c cs ih => simp [canonAux, upAfter, ih]

theorem length_canonAux (u : Bool) (l : List Char) :
    (canonAux u l).length = l.length := by
  induction l generalizing u with
  | nil => rfl
  | cons c cs ih => simp [canonAux, ih]

theorem goToLower_canonAux (u : Bool) (l : List Char) :
    goToLower (canonAux u l) = goToLower l := by
  induction l generalizing u with
  | nil => rfl
  | cons c cs ih =>
    simp only [canonAux, goToLower, List.map_cons, lowerChar_canonChar]
    have hrest := ih (decide (c = '-'))
    simp only [goToLower] at hrest
    rw [hrest]

theorem goToLower_canonicalHeaderKey (s : GoStr) :
    goToLower (canonicalHeaderKey s) = goToLower s := by
  unfold canonicalHeaderKey
  by_cases hv : s.all validHeaderFieldChar = true
  · rw [if_pos hv, goToLower_canonAux]
  · rw [if_neg hv]

theorem goToLower_append (a b : GoStr) :
    goToLower (a ++ b) = goToLower a ++ goToLower b := by
  simp [goToLower]

/-- Canonical keys sharing a prefix collide only when the lower-cased key
remainders collide. -/
theorem canonKey_inj (pfx a b : GoStr)
    (h : canonicalHeaderKey (pfx ++ a) = canonicalHeaderKey (pfx ++ b)) :
    goToLower a = goToLower b := by
  have h1 : goToLower (pfx ++ a) = goToLower (pfx ++ b) := by
    rw [← goToLower_canonicalHeaderKey (pfx ++ a), h, goToLower_canonicalHeaderKey]
  rw [goToLower_append, goToLower_append] at h1
  exact List.append_cancel_left h1

theorem mapInsert_fresh (k v : GoStr) (m : List (GoStr × GoStr))
    (h : k ∉ m.map Prod.fst) : mapInsert k v m = m ++ [(k, v)] := by
  induction m with
  | nil => rfl
  | cons kv rest ih =>
    simp only [List.map_cons, List.mem_cons] at h
    push_neg at h
    rw [show mapInsert k v (kv :: rest) =
        if kv.1 = k then (k, v) :: rest else kv :: mapInsert k v rest from rfl,
      if_neg (fun hx => h.1 hx.symm), ih h.2]
    rfl

theorem foldl_mapInsert_fresh (f : GoStr × GoStr → GoStr × GoStr) :
    ∀ (l : List (GoStr × GoStr)) (acc : List (GoStr × GoStr)),
      (∀ kv ∈ l, (f kv).1 ∉ acc.map Prod.fst) →
      (l.map (fun kv => (f kv).1)).Nodup →
      l.foldl (fun m kv => mapInsert (f kv).1 (f kv).2 m) acc = acc ++ l.map f := by
  intro l
  induction l with
  | nil => intro acc _ _; simp
  | cons kv rest ih =>
    intro acc hfresh hnodup
    simp only [List.map_cons, List.nodup_cons, List.mem_map] at hnodup
    simp only [List.foldl_cons]
    rw [mapInsert_fresh _ _ _ (hfresh kv (by simp))]
    rw [ih (acc ++ [f kv]) ?_ ?_]
    · simp
    · intro kv2 hkv2
      simp only [List.map_append, List.mem_append, List.map_cons, List.map_nil,
        List.mem_singleton, List.mem_cons, List.not_mem_nil, or_false]
      push_neg
      refine ⟨hfresh kv2 (by simp [hkv2]), ?_⟩
      intro hc
      exact hnodup.1 ⟨kv2, hkv2, hc⟩
    · exact hnodup.2

theorem isPrefixOf_append_self (l t : List Char) : l.isPrefixOf (l ++ t) = true := by
  induction l with
  | nil => simp [List.isPrefixOf]
  | cons c cs ih => simp [List.isPrefixOf, ih]

/-- When the key's bytes are valid header-field bytes, the canonicalized
prefixed header starts with the canonicalized prefix, and stripping it and
lower-casing recovers the lower-cased key. -/
theorem canonKey_strip (pfx k : GoStr) (hk : k.all validHeaderFieldChar = true) :
    (canonicalHeaderKey pfx).isPrefixOf (canonicalHeaderKey (pfx ++ k)) = true ∧
    goToLower ((canonicalHeaderKey (pfx ++ k)).drop (canonicalHeaderKey pfx).length) =
      goToLower k := by
  by_cases hp : pfx.all validHeaderFieldChar = true
  · have hall : (pfx ++ k).all validHeaderFieldChar = true := by
      rw [List.all_append, hp, hk]
      rfl
    unfold canonicalHeaderKey
    rw [if_pos hp, if_pos hall, canonAux_append]
    refine ⟨isPrefixOf_append_self _ _, ?_⟩
    rw [List.drop_left, goToLower_canonAux]
  · have hpf : pfx.all validHeaderFieldChar = false := by
      cases hb : pfx.all validHeaderFieldChar
      · rfl
      · exact absurd hb hp
    have hall : ((pfx ++ k).all validHeaderFieldChar = true) = False := by
      rw [List.all_append, hpf]
      simp
    unfold canonicalHeaderKey
    rw [if_neg hp, if_neg (by rw [hall]; exact id)]
    exact ⟨isPrefixOf_append_self _ _, by rw [List.drop_left]⟩

theorem metadataHeaders_eq (m : Metadata) (pfx : GoStr)
    (hnodup : (m.map (fun kv => goToLower kv.1)).Nodup) :
    Metadata.Headers m pfx =
      m.map (fun kv => (canonicalHeaderKey (pfx ++ kv.1), kv.2)) := by
  have h1 : m.Pairwise (fun a b => goToLower a.1 ≠ goToLower b.1) :=
    List.pairwise_map.mp hnodup
  have h2 : m.Pairwise (fun a b =>
      canonicalHeaderKey (pfx ++ a.1) ≠ canonicalHeaderKey (pfx ++ b.1)) :=
    h1.imp (fun h hc => h (canonKey_inj pfx _ _ hc))
  have hcanNodup :
      (m.map (fun kv => canonicalHeaderKey (pfx ++ kv.1))).Nodup :=
    List.pairwise_map.mpr h2
  have := foldl_mapInsert_fresh
    (fun kv => (canonicalHeaderKey (pfx ++ kv.1), kv.2)) m []
    (by intro kv _; simp) hcanNodup
  simpa [Metadata.Headers] using this

theorem headersMetadata_of_mapped (pfx : GoStr) :
    ∀ (m : Metadata) (acc : List (GoStr × GoStr)),
      (∀ kv ∈ m, kv.1.all validHeaderFieldChar = true) →
      (m.map (fun kv => goToLower kv.1)).Nodup →
      (∀ kv ∈ m, goToLower kv.1 ∉ acc.map Prod.fst) →
      (m.map (fun kv => (canonicalHeaderKey (pfx ++ kv.1), kv.2))).foldl
        (fun macc kv =>
          if (canonicalHeaderKey pfx).isPrefixOf kv.1 then
            mapInsert (goToLower (kv.1.drop (canonicalHeaderKey pfx).length)) kv.2 macc
          else macc) acc =
      acc ++ m.map (fun kv => (goToLower kv.1, kv.2)) := by
  intro m
  induction m with
  | nil => intro acc _ _ _; simp
  | cons kv rest ih =>
    intro acc hvalid hnodup hfresh
    obtain ⟨hpref, hstrip⟩ := canonKey_strip pfx kv.1 (hvalid kv (by simp))
    simp only [List.map_cons, List.nodup_cons, List.mem_map] at hnodup
    simp only [List.map_cons, List.foldl_cons]
    rw [if_pos hpref, hstrip, mapInsert_fresh _ _ _ (hfresh kv (by simp))]
    rw [ih (acc ++ [(goToLower kv.1, kv.2)]) (fun kv2 h2 => hvalid kv2 (by simp [h2]))
      hnodup.2 ?_]
    · simp
    · intro kv2 hkv2
      simp only [List.map_append, List.mem_append, List.map_cons, List.map_nil,
        List.mem_singleton, List.mem_cons, List.not_mem_nil, or_false]
      push_neg
      refine ⟨hfresh kv2 (by simp [hkv2]), ?_⟩
      intro hc
      exact hnodup.1 ⟨kv2, hkv2, hc⟩

/-- C2 counterexample: a metadata map with the lower-case key `"a b"` (the
space is not a valid header-field byte) and the non-canonically-cased prefix
`"x-meta-"` round-trips to the empty map, not to itself. -/
theorem c2_metadata_roundtrip_cex :
    (∀ kv ∈ ([(gs "a b", gs "v")] : Metadata), goToLower kv.1 = kv.1) ∧
    Headers.Metadata (Metadata.Headers [(gs "a b", gs "v")] (gs "x-meta-"))
      (gs "x-meta-") = [] ∧
    ([] : Metadata) ≠ [(gs "a b", gs "v")] := by
  refine ⟨?_, ?_, ?_⟩ <;> decide

/-- C2 amended: provided every key of the metadata map consists of valid
header-field bytes (and no two keys collide after lower-casing), converting
to headers with any prefix and back returns the map with its keys
lower-cased — hence exactly the map when the keys are already lower-case.
Without the byte restriction the round trip can drop entries (see the
counterexample). -/
theorem c2_metadata_roundtrip_amended (m : Metadata) (pfx : GoStr)
    (hvalid : ∀ kv ∈ m, kv.1.all validHeaderFieldChar = true)
    (hnodup : (m.map (fun kv => goToLower kv.1)).Nodup) :
    Headers.Metadata (Metadata.Headers m pfx) pfx =
      m.map (fun kv => (goToLower kv.1, kv.2)) ∧
    ((∀ kv ∈ m, goToLower kv.1 = kv.1) →
      Headers.Metadata (Metadata.Headers m pfx) pfx = m) := by
  have h1 : Headers.Metadata (Metadata.Headers m pfx) pfx =
      m.map (fun kv => (goToLower kv.1, kv.2)) := by
    rw [metadataHeaders_eq m pfx hnodup]
    have := headersMetadata_of_mapped pfx m [] hvalid hnodup (by simp)
    simpa [Headers.Metadata] using this
  refine ⟨h1, fun hid => ?_⟩
  rw [h1]
  have : m.map (fun kv => (goToLower kv.1, kv.2)) = m.map id := by
    apply List.map_congr_left
    intro kv hkv
    rw [hid kv hkv]
    rfl
  rw [this, List.map_id]

/-- C2 witness: a two-entry lower-case metadata map with the object-meta
prefix round-trips to itself. -/
theorem c2_metadata_roundtrip_witness :
    Headers.Metadata
      (Metadata.Headers [(gs "fruit", gs "apple"), (gs "x1", gs "v")]
        (gs "X-Object-Meta-")) (gs "X-Object-Meta-") =
      [(gs "fruit", gs "apple"), (gs "x1", gs "v")] := by
  have h := c2_metadata_roundtrip_amended
    [(gs "fruit", gs "apple"), (gs "x1", gs "v")] (gs "X-Object-Meta-")
    (by decide) (by decide)
  exact h.2 (by decide)

end CodecLemmas
